import Mathlib

/-!
Shallow embedding of the core of the `lyncs` repository
(`src/lyncs/tunable.py` and `src/lyncs/field/array.py` with
`src/lyncs/field/base.py`), together with theorems settling the
specification claims about it.

Python's dynamically typed values are embedded by the inductive type
`Lyncs.Value`; Python dicts are embedded as association lists whose
well-formedness (unique keys) is maintained by the class API itself.
A method that can raise is embedded with an explicit result constructor
carrying the exception message and the state of the object at the point
the exception was raised (Python exceptions do not roll back prior
mutations, so recording the raise-time state is the faithful reading).
-/

namespace Lyncs

/-- Python values as used by the tunable machinery: strings, naturals,
booleans, lists (also standing for tuples) and dicts from names to
integers (the shape/chunk dicts of `ChunksOf`). -/
inductive Value where
  | vstr : String → Value
  | vnat : Nat → Value
  | vbool : Bool → Value
  | vlist : List Value → Value
  | vdictN : List (String × Nat) → Value

mutual

/-- Decidable equality of embedded Python values (written by hand since
the automatic derivation does not support the nested `List Value`). -/
def Value.decEq : (a b : Value) → Decidable (a = b)
  | .vstr x, .vstr y => decidable_of_iff (x = y) (by simp)
  | .vnat x, .vnat y => decidable_of_iff (x = y) (by simp)
  | .vbool x, .vbool y => decidable_of_iff (x = y) (by simp)
  | .vlist x, .vlist y =>
    match Value.decEqList x y with
    | isTrue h => isTrue (by rw [h])
    | isFalse h => isFalse (by intro hh; injection hh; contradiction)
  | .vdictN x, .vdictN y => decidable_of_iff (x = y) (by simp)
  | .vstr _, .vnat _ => isFalse (fun h => Value.noConfusion h)
  | .vstr _, .vbool _ => isFalse (fun h => Value.noConfusion h)
  | .vstr _, .vlist _ => isFalse (fun h => Value.noConfusion h)
  | .vstr _, .vdictN _ => isFalse (fun h => Value.noConfusion h)
  | .vnat _, .vstr _ => isFalse (fun h => Value.noConfusion h)
  | .vnat _, .vbool _ => isFalse (fun h => Value.noConfusion h)
  | .vnat _, .vlist _ => isFalse (fun h => Value.noConfusion h)
  | .vnat _, .vdictN _ => isFalse (fun h => Value.noConfusion h)
  | .vbool _, .vstr _ => isFalse (fun h => Value.noConfusion h)
  | .vbool _, .vnat _ => isFalse (fun h => Value.noConfusion h)
  | .vbool _, .vlist _ => isFalse (fun h => Value.noConfusion h)
  | .vbool _, .vdictN _ => isFalse (fun h => Value.noConfusion h)
  | .vlist _, .vstr _ => isFalse (fun h => Value.noConfusion h)
  | .vlist _, .vnat _ => isFalse (fun h => Value.noConfusion h)
  | .vlist _, .vbool _ => isFalse (fun h => Value.noConfusion h)
  | .vlist _, .vdictN _ => isFalse (fun h => Value.noConfusion h)
  | .vdictN _, .vstr _ => isFalse (fun h => Value.noConfusion h)
  | .vdictN _, .vnat _ => isFalse (fun h => Value.noConfusion h)
  | .vdictN _, .vbool _ => isFalse (fun h => Value.noConfusion h)
  | .vdictN _, .vlist _ => isFalse (fun h => Value.noConfusion h)

/-- Decidable equality of lists of embedded Python values. -/
def Value.decEqList : (a b : List Value) → Decidable (a = b)
  | [], [] => isTrue rfl
  | [], _ :: _ => isFalse (fun h => List.noConfusion h)
  | _ :: _, [] => isFalse (fun h => List.noConfusion h)
  | x :: xs, y :: ys =>
    match Value.decEq x y, Value.decEqList xs ys with
    | isTrue h1, isTrue h2 => isTrue (by rw [h1, h2])
    | isFalse h1, _ => isFalse (by intro hh; injection hh; contradiction)
    | isTrue _, isFalse h2 => isFalse (by intro hh; injection hh; contradiction)

end

instance : DecidableEq Value := Value.decEq

/-- The Python `in` operator restricted to the containers of `Value`:
membership for lists/tuples, substring test for strings; `none` embeds the
`TypeError` raised when the right operand is not a container. -/
def pyIn (v : Value) : Value → Option Bool
  | .vlist l => some (l.contains v)
  | .vstr t =>
    match v with
    | .vstr s => some (decide (List.IsInfix s.toList t.toList))
    | _ => none
  | _ => none

/-- `Permutation.compatible` (tunable.py lines 317-319):
`len(self.get()) == len(value) and Counter(self.get()) == Counter(value)`.
`Counter` equality on two lists is equality of their multisets. -/
def Permutation.compatible (fixed value : List Value) : Bool :=
  fixed.length == value.length &&
    decide (Multiset.ofList fixed = Multiset.ofList value)

/-- `ChunksOf.compatible` (tunable.py lines 345-349): every item of the
candidate dict must name a key of the stored shape whose extent it does
not exceed and divides evenly
(`key in shape and val<=shape[key] and shape[key]%val == 0`). -/
def ChunksOf.compatible (shape chunks : List (String × Nat)) : Bool :=
  chunks.all (fun kv =>
    match shape.lookup kv.1 with
    | some s => decide (kv.2 ≤ s) && (s % kv.2 == 0)
    | none => false)

/-- The `TunableOption` class hierarchy of tunable.py:
`base` is the plain `TunableOption`, then `Permutation`, `Choice`
(constructed over a non-empty list — asserted in `Choice.__init__`) and
`ChunksOf` (whose constructor normalizes its input to a dict). -/
inductive TOption where
  | base : Value → TOption
  | permutation : List Value → TOption
  | choice : List Value → TOption
  | chunksOf : List (String × Nat) → TOption
deriving DecidableEq

/-- `get` of each option class. `TunableOption.get` returns the stored
value; `Permutation` inherits it (the stored list); `Choice.get` is
`self._value[0]` (the constructor asserts the list non-empty, so the
default of `headD` is never reached on objects the API can build);
`ChunksOf` inherits `get` on its stored dict. -/
def TOption.get : TOption → Value
  | .base v => v
  | .permutation l => .vlist l
  | .choice l => l.headD (.vlist [])
  | .chunksOf d => .vdictN d

/-- Dynamic dispatch of `compatible` as called by `Tunable.__setattr__`.
`none` embeds an exception escaping the predicate itself:
for `Permutation`, `len(value)`/`Counter(value)` raise on a non-sequence
candidate; for `Choice`, `value in self.get()` is the Python `in` on the
*first alternative* (`Choice.get` overrides `get`!); for `ChunksOf`,
the constructor called on a non-list/dict candidate leaves its `shape`
local unbound. Non-list sequence candidates (e.g. strings) for
`Permutation` are outside this model. -/
def TOption.compatible : TOption → Value → Option Bool
  | .base v, w => some (w == v)
  | .permutation l, .vlist m => some (Permutation.compatible l m)
  | .permutation _, _ => none
  | .choice l, w => pyIn w (TOption.get (.choice l))
  | .chunksOf d, .vdictN c => some (ChunksOf.compatible d c)
  | .chunksOf _, _ => none

/-- The state of a `Tunable` object: its four `__slots__`.
`tunable_options` and `tuned_options` are the two dicts (association
lists with unique keys, maintained by the class API); `tuning` is the
`_tuning` slot (a Python value, `False` after `__init__`);
`raise_not_tuned` is the `_raise_not_tuned` slot, which `__init__` never
initializes (`none` = unset slot). -/
structure Tunable where
  tunable_options : List (String × TOption)
  tuned_options : List (String × Value)
  tuning : Value
  raise_not_tuned : Option Value
deriving DecidableEq

/-- `Tunable.__slots__`. -/
def Tunable.slots : List String :=
  ["_tunable_options", "_tuned_options", "_tuning", "_raise_not_tuned"]

/-- The state of `Tunable()` right after `__init__` with no options:
both dicts empty, `_tuning = False`, `_raise_not_tuned` unset. -/
def Tunable.init : Tunable :=
  { tunable_options := [], tuned_options := [],
    tuning := .vbool false, raise_not_tuned := none }

/-- Property `Tunable.tunable`: `bool(self.tunable_options)`. -/
def Tunable.tunable (t : Tunable) : Bool :=
  !t.tunable_options.isEmpty

/-- Property `Tunable.tuned`: `not self.tunable`. -/
def Tunable.tuned (t : Tunable) : Bool :=
  !t.tunable

/-- Outcome of a statement on a `Tunable`: normal return with the new
state, or an exception with its message and the state at raise time. -/
inductive SetResult where
  | ok : Tunable → SetResult
  | raised : String → Tunable → SetResult
deriving DecidableEq

/-- `Tunable.__setattr__` (tunable.py lines 258-268).  The slot check
comes first; for an option name, an incompatible value fails the
`assert` before any mutation, a compatible value is moved from
`_tunable_options` to `_tuned_options`, and a tuned name always fails
`assert False`.  Otherwise `super().__setattr__` sets one of the four
slots (the two dict-valued slots cannot hold an arbitrary `Value`, which
the model records as `none`) or raises `AttributeError`, since a slotted
class accepts no other attribute. -/
def Tunable.setattr (t : Tunable) (key : String) (value : Value) :
    Option SetResult :=
  if !(Tunable.slots.contains key) &&
      ((t.tunable_options.lookup key).isSome ||
       (t.tuned_options.lookup key).isSome) then
    match t.tunable_options.lookup key with
    | some opt =>
      match opt.compatible value with
      | none => some (.raised "TypeError" t)
      | some false => some (.raised "Value not compatible" t)
      | some true =>
        some (.ok { t with
          tunable_options := t.tunable_options.eraseP (fun p => p.1 == key),
          tuned_options := t.tuned_options ++ [(key, value)] })
    | none =>
      some (.raised "The value of a tuned option cannot be changed." t)
  else
    match key with
    | "_tuning" => some (.ok { t with tuning := value })
    | "_raise_not_tuned" => some (.ok { t with raise_not_tuned := some value })
    | "_tunable_options" => none
    | "_tuned_options" => none
    | _ => some (.raised "AttributeError" t)

/-- Outcome of `Tunable.tune(key)`: the returned value with the new
state, or an exception with its message and raise-time state. -/
inductive TuneResult where
  | value : Value → Tunable → TuneResult
  | raised : String → Tunable → TuneResult
deriving DecidableEq

/-- `Tunable.tune(key)` without a callback (tunable.py lines 208-241,
single-key path, `callback=None`): an already tuned key returns its
stored value unchanged; an unknown key fails the assert; otherwise
`_tuning` is set to `True`, the option's `get()` is assigned through
`__setattr__`, `_tuning` is reset to `False` only in the `except`
branch, and the (now tuned) value is returned — on the success path
`_tuning` is left `True`. -/
def Tunable.tuneKey (t : Tunable) (key : String) : Option TuneResult :=
  match t.tuned_options.lookup key with
  | some v => some (.value v t)
  | none =>
    match t.tunable_options.lookup key with
    | none => some (.raised "Option not found" t)
    | some opt =>
      let t1 : Tunable := { t with tuning := .vbool true }
      match t1.setattr key opt.get with
      | none => none
      | some (.ok t2) =>
        match t2.tuned_options.lookup key with
        | some v => some (.value v t2)
        | none => some (.raised "KeyError" t2)
      | some (.raised msg t2) =>
        some (.raised msg { t2 with tuning := .vbool false })

/-- A Python object as inspected by `is_tunable`: a `Tunable` instance,
a list/tuple, or anything else. -/
inductive PyObj where
  | tun : Tunable → PyObj
  | list : List PyObj → PyObj
  | atom : Value → PyObj

/-- `is_tunable` (tunable.py lines 51-58): an empty list/tuple is not
tunable, a non-empty one is tunable iff its head is or its tail
(`obj[1:]`) is, a `Tunable` is tunable iff `obj.tunable is True`, and
anything else is not. -/
def is_tunable : PyObj → Bool
  | .list [] => false
  | .list (x :: xs) => is_tunable x || is_tunable (.list xs)
  | .tun t => t.tunable
  | .atom _ => false

/-- A plain `lyncs.Delayed` object (tunable.py lines 61-116): its dask
graph is the dependency mapping from node keys to node payloads, which
may embed `Tunable` objects.  (`DelayedAttr` subclasses, the one special
case in `Delayed.tune`, are a distinct dask type and not part of this
model of a plain delayed graph.) -/
structure LDelayed where
  dask : List (String × PyObj)

/-- Property `Delayed.tunable`: `is_tunable(list(self.dask.values()))`. -/
def LDelayed.tunable (g : LDelayed) : Bool :=
  is_tunable (.list (g.dask.map (fun p => p.2)))

/-- Property `Delayed.tunable_items`: the entries of the dependency
mapping whose value is tunable. -/
def LDelayed.tunable_items (g : LDelayed) : List (String × PyObj) :=
  g.dask.filter (fun p => is_tunable p.2)

/-- `Delayed.tune` (tunable.py lines 71-77) on a plain delayed graph:
`if not self.tunable: return` and then, since the receiver is not a
`DelayedAttr`, the body ends in `pass` — no entry of the graph is
touched and the method returns with the graph (and every `Tunable` in
it) exactly as it was. -/
def LDelayed.tune (g : LDelayed) : LDelayed :=
  if !g.tunable then g else g

/-- `Delayed.compute` (tunable.py lines 89-99) with `tune=True`: calls
`self.tune(**tune_kwargs)` first and then hands the graph to the
external runtime (`super().compute`); the graph handed over is the
result of the tuning step. -/
def LDelayed.computeGraph (g : LDelayed) (tune : Bool) : LDelayed :=
  if tune then g.tune else g

/-!
## The `ArrayField` operations of `src/lyncs/field/array.py`

The claims about `ArrayField` concern which of its operations return a
new `Field` (`self.copy(...)`) and which return the receiver itself
(`return self`).  The embedding therefore records, next to the raised
errors, which of the two returns is taken.  The helper methods
`copy`, `get_axes`, `get_indeces` and `axes_counts` are used by
array.py but their definitions are not part of the sources under
`src/` (the `BaseField` in `src/lyncs/field/base.py` does not define
them); they are modelled from the spec below, each marked so.
-/

/-- `re.sub("_[0-9]+$", "", key)` as used by `BaseField.shape`
(base.py line 140): strips a trailing occurrence counter from an index
name, giving back the underlying axis name. -/
def stripIndexCounter (s : String) : String :=
  let parts := s.splitOn "_"
  if parts.length ≥ 2 ∧ parts.getLast! ≠ "" ∧ parts.getLast!.all Char.isDigit
  then String.intercalate "_" parts.dropLast
  else s

/-- `BaseField.indeces` (base.py lines 106-122): the field's axes, in
order, with every repeated axis name suffixed by an occurrence counter
`_0, _1, ...`. -/
def indecesOf (axes : List String) : List String :=
  (axes.foldl
    (fun (acc : List String × List (String × Nat)) axis =>
      if axes.count axis > 1 then
        let idx := ((acc.2.lookup axis).getD 0)
        (acc.1 ++ [axis ++ "_" ++ toString idx],
         (axis, idx + 1) :: acc.2.eraseP (fun p => p.1 == axis))
      else (acc.1 ++ [axis], acc.2))
    ([], [])).1

/-- The state of an `ArrayField` consulted by the operations under
study: its dtype, its axes (repetitions allowed) and the frozen lattice
extents.  Coordinate subsetting only changes the *sizes* in `shape`
(base.py lines 133-143), which none of the studied operations depends
on, so it is not part of this model. -/
structure PField where
  dtype : String
  axes : List String
  lattice : List (String × Nat)
deriving DecidableEq

/-- `BaseField.indeces` of the field. -/
def PField.indeces (f : PField) : List String :=
  indecesOf f.axes

/-- `BaseField.shape` (base.py lines 132-143) without coordinate
subsetting: each index paired with the lattice extent of its underlying
axis. -/
def PField.shape (f : PField) : List (String × Nat) :=
  f.indeces.map (fun key => (key, (f.lattice.lookup (stripIndexCounter key)).getD 0))

/-- Modelled from the spec: `axes_counts` (used by
`ArrayField.transpose`, missing from src/) maps each axis name of the
field to its multiplicity in the field's axes. -/
def PField.axes_counts (f : PField) : List (String × Nat) :=
  f.axes.dedup.map (fun a => (a, f.axes.count a))

/-- Modelled from the spec: `get_axes` (used by `ArrayField.transpose`,
missing from src/) expands the given symbolic axes into the field's
elementary axis names; called with no axes it denotes all of the
field's axes. -/
def PField.get_axes (f : PField) (axes : List String) : List String :=
  if axes.isEmpty then f.axes else axes.filter (fun a => f.axes.contains a)

/-- Modelled from the spec: `get_indeces` (used by `squeeze` and
`roll`, missing from src/) resolves the given axes to the field's
indeces, raising the unknown-dimension error when an axis is not part
of the field. -/
def PField.get_indeces (f : PField) (axes : List String) :
    Except String (List String) :=
  if axes.all (fun a => f.axes.contains a) then
    .ok (f.indeces.filter (fun idx => axes.contains (stripIndexCounter idx)))
  else .error "Unknown axis"

/-- Which of the two possible returns an `ArrayField` operation takes:
`same` embeds `return self` (the receiver itself), `copied` embeds
`return self.copy(...)`.  Modelled from the spec: `copy` (missing from
src/) allocates a new `Field` object, so a `copied` return is never the
receiver. -/
inductive FRet where
  | same : FRet
  | copied : FRet
deriving DecidableEq

/-- `ArrayField.astype` (array.py lines 85-89): returns the receiver
itself when the dtype already matches, else a copy with the new dtype. -/
def PField.astype (f : PField) (dtype : String) : FRet :=
  if f.dtype == dtype then .same else .copied

/-- `ArrayField.zeros` (array.py lines 91-93): always `self.copy(...)`. -/
def PField.zeros (f : PField) (dtype : Option String) : FRet :=
  .copied

/-- `ArrayField.ones` (array.py lines 95-97): always `self.copy(...)`. -/
def PField.ones (f : PField) (dtype : Option String) : FRet :=
  .copied

/-- `ArrayField.reorder` (array.py lines 109-113): raises unless the
given order mentions exactly the field's indeces as a set, else always
`self.copy(...)`. -/
def PField.reorder (f : PField) (indeces_order : List String) :
    Except String FRet :=
  if indeces_order.toFinset = f.indeces.toFinset then .ok .copied
  else .error "All the indeces need to be specified in the reordering"

/-- The validation loop of `ArrayField.transpose` (array.py lines
158-171) over the `axes_order` keyword arguments: each named axis must
be an axis of the field, with exactly one index position per repetition
forming a permutation of `range(count)`. -/
def transposeValidate (counts : List (String × Nat)) :
    List (String × List Nat) → Option String
  | [] => none
  | (axis, val) :: rest =>
    match counts.lookup axis with
    | none => some ("Axis " ++ axis ++ " not in field")
    | some c =>
      if val.length ≠ c then
        some "indeces given do not match the count of the axis"
      else if ¬ (val.toFinset = (List.range c).toFinset) then
        some "not a permutation"
      else transposeValidate counts rest

/-- `ArrayField.transpose` (array.py lines 140-181): after validating
`axes_order`, the axes to transpose are the requested (or all) axes not
already fixed by `axes_order` and with count above one; with nothing to
transpose (`if not axes and not axes_order`) the *receiver itself* is
returned, otherwise a copy. -/
def PField.transpose (f : PField) (axes : List String)
    (axes_order : List (String × List Nat)) : Except String FRet :=
  let counts := f.axes_counts
  match transposeValidate counts axes_order with
  | some err => .error err
  | none =>
    let axes2 := (f.get_axes axes).filter (fun a =>
      !(axes_order.map (fun p => p.1)).contains a &&
        ((counts.lookup a).getD 0 > 1))
    if axes2.isEmpty && axes_order.isEmpty then .ok .same else .ok .copied

/-- `uniform_input_axes` (array.py lines 333-341): merges the
positional axes with the `axis=` and `axes=` keyword arguments (a lone
string standing for a one-element list). -/
def uniform_input_axes (axes axisKw axesKw : List String) : List String :=
  axes ++ axisKw ++ axesKw

/-- `ArrayField.squeeze` (array.py lines 115-121): resolves the axes to
indeces, then iterates `for key, val in shape` where `shape` is
`dict(self.shape)` — iterating a dict yields its *keys*, so each index
name is unpacked as a pair, which raises `ValueError` unless the name
has exactly two characters; whenever the statement survives, the method
returns `self.copy(...)`. -/
def PField.squeeze (f : PField) (axes axisKw axesKw : List String) :
    Except String FRet :=
  let axs := uniform_input_axes axes axisKw axesKw
  match (if axs.isEmpty then .ok f.indeces else f.get_indeces axs :
      Except String (List String)) with
  | .error e => .error e
  | .ok _ =>
    let dictKeys := (f.shape.map (fun p => p.1)).dedup
    if dictKeys.all (fun k => k.length == 2) then .ok .copied
    else .error "ValueError: unpacking an index name as a pair"

/-- `ArrayField.roll` (array.py lines 197-211): resolves the axes to
indeces and returns `self.copy(...)`. -/
def PField.roll (f : PField) (shift : Int) (axes axisKw axesKw : List String) :
    Except String FRet :=
  let axs := uniform_input_axes axes axisKw axesKw
  match f.get_indeces axs with
  | .error e => .error e
  | .ok _ => .ok .copied

/-!
## Helper lemmas
-/

/-- A natural leaves remainder zero exactly when it is divided evenly;
the degenerate divisor 0 agrees on both sides (`s % 0 = s` and
`0 ∣ s ↔ s = 0`). -/
theorem mod_eq_zero_iff_dvd (v s : Nat) : s % v = 0 ↔ v ∣ s :=
  Nat.dvd_iff_mod_eq_zero.symm

/-- One entry of the `ChunksOf.compatible` conjunction, rephrased with
divisibility. -/
theorem chunk_entry_iff (B : List (String × Nat)) (k : String) (v : Nat) :
    (match B.lookup k with
     | some s => decide (v ≤ s) && (s % v == 0)
     | none => false) = true ↔
      ∃ s, B.lookup k = some s ∧ v ∣ s ∧ v ≤ s := by
  cases h : B.lookup k with
  | none => simp
  | some s =>
    simp only [Bool.and_eq_true, decide_eq_true_eq, beq_iff_eq]
    constructor
    · rintro ⟨h1, h2⟩
      exact ⟨s, rfl, (mod_eq_zero_iff_dvd v s).mp h2, h1⟩
    · rintro ⟨s', hs', hdvd, hle⟩
      injection hs' with h2
      subst h2
      exact ⟨hle, (mod_eq_zero_iff_dvd v _).mpr hdvd⟩

/-!
## Theorems settling the claims
-/

/-- C9: for every `Tunable` at every time, `tuned` is exactly the
negation of `tunable`: it is true iff `tunable_options` is empty,
independent of the contents of `tuned_options`; a `Tunable` constructed
with no options reports `tuned == true`. -/
theorem c9_tuned_iff_no_tunable_options :
    (∀ t : Tunable, t.tuned = !t.tunable ∧
      (t.tuned = true ↔ t.tunable_options = []) ∧
      (∀ opts, ({ t with tuned_options := opts } : Tunable).tuned = t.tuned)) ∧
    Tunable.init.tuned = true := by
  refine ⟨fun t => ⟨rfl, ?_, fun opts => rfl⟩, rfl⟩
  simp [Tunable.tuned, Tunable.tunable, List.isEmpty_iff]

/-- C10: `is_tunable` is false on the empty list/tuple and on anything
that is neither a `Tunable` nor a list/tuple; a `Tunable` is tunable
exactly when its `tunable_options` mapping is non-empty; a list/tuple is
tunable exactly when at least one element (recursively) is. -/
theorem c10_is_tunable_characterization :
    is_tunable (.list []) = false ∧
    (∀ v, is_tunable (.atom v) = false) ∧
    (∀ t : Tunable, is_tunable (.tun t) = !t.tunable_options.isEmpty) ∧
    (∀ l : List PyObj, is_tunable (.list l) = l.any is_tunable) := by
  refine ⟨by simp [is_tunable], fun v => by simp [is_tunable],
    fun t => by simp [is_tunable, Tunable.tunable], fun l => ?_⟩
  induction l with
  | nil => simp [is_tunable]
  | cons x xs ih => simp [is_tunable, ih]

/-- The fixed sequence and the candidates of the C6 examples. -/
def permXYZ : List Value := [.vstr "x", .vstr "y", .vstr "z"]

/-- C6: `Permutation.compatible` accepts exactly the candidates with the
same labels and multiplicities (the same multiset) as the fixed
sequence; in particular `["z","x","y"]` is accepted while `["x","y"]`
and `["x","x","y"]` are rejected against `["x","y","z"]`. -/
theorem c6_permutation_compatible_iff_same_multiset :
    (∀ fixed v : List Value,
      Permutation.compatible fixed v = true ↔
        Multiset.ofList v = Multiset.ofList fixed) ∧
    Permutation.compatible permXYZ [.vstr "z", .vstr "x", .vstr "y"] = true ∧
    Permutation.compatible permXYZ [.vstr "x", .vstr "y"] = false ∧
    Permutation.compatible permXYZ [.vstr "x", .vstr "x", .vstr "y"] = false := by
  refine ⟨fun fixed v => ?_, by decide, by decide, by decide⟩
  simp only [Permutation.compatible, Bool.and_eq_true, beq_iff_eq,
    decide_eq_true_eq]
  constructor
  · rintro ⟨_, h⟩
    exact h.symm
  · intro h
    refine ⟨?_, h.symm⟩
    have hc := congrArg Multiset.card h
    simpa [Multiset.coe_card] using hc.symm

/-- C7: `ChunksOf.compatible` accepts a candidate dict exactly when each
of its entries names an axis of the stored bound whose extent it divides
evenly and does not exceed; in particular against the bound
`{"x": 8, "y": 4}` the candidate `{"x": 4}` is accepted and `{"x": 3}`
is rejected. -/
theorem c7_chunksof_compatible_iff_divides :
    (∀ B C : List (String × Nat),
      ChunksOf.compatible B C = true ↔
        ∀ p ∈ C, ∃ s, B.lookup p.1 = some s ∧ p.2 ∣ s ∧ p.2 ≤ s) ∧
    ChunksOf.compatible [("x", 8), ("y", 4)] [("x", 4)] = true ∧
    ChunksOf.compatible [("x", 8), ("y", 4)] [("x", 3)] = false := by
  refine ⟨fun B C => ?_, by decide, by decide⟩
  simp only [ChunksOf.compatible, List.all_eq_true]
  exact forall₂_congr (fun p _ => chunk_entry_iff B p.1 p.2)

/-- A `Tunable` with the single open option `opt: TunableOption(0)`. -/
def oneOptTunable : Tunable :=
  { tunable_options := [("opt", .base (.vnat 0))], tuned_options := [],
    tuning := .vbool false, raise_not_tuned := none }

/-- A delayed graph whose single node payload is `oneOptTunable`. -/
def c1graph : LDelayed :=
  { dask := [("node", .tun oneOptTunable)] }

/-- C1: evaluation of `Delayed.tune` at the failing input — a graph
holding one `Tunable` with an open option.  The graph is tunable, yet
`tune()` returns with the graph (and the `Tunable` inside it) exactly
as it was, so after the call the reachable `Tunable` still reports
`tuned == false`: the tuning step resolves nothing, against both the
claim and the class's own docstring.  (The method body consists of the
`DelayedAttr` special case followed by `pass`; the walk over
`tunable_items` it promises is absent.) -/
theorem c1_delayed_tune_resolves_nothing :
    c1graph.tunable = true ∧
    c1graph.tune = c1graph ∧
    c1graph.computeGraph true = c1graph ∧
    ("node", PyObj.tun oneOptTunable) ∈ c1graph.tune.dask ∧
    oneOptTunable.tuned = false := by
  have htunable : c1graph.tunable = true := by
    simp [c1graph, LDelayed.tunable, is_tunable, Tunable.tunable,
      oneOptTunable]
  have htune : c1graph.tune = c1graph := by
    simp [LDelayed.tune]
  refine ⟨htunable, htune, ?_, ?_, rfl⟩
  · simp [LDelayed.computeGraph, htune]
  · rw [htune]
    exact List.mem_singleton.mpr rfl

/-- The alternatives of the C3 failing input: the `Choice` is built over
the two lists `[1]` and `[2]`. -/
def c3alts : List Value := [.vlist [.vnat 1], .vlist [.vnat 2]]

/-- C3: evaluation of `Choice` at the failing input.  `get()` does
return the first alternative, but `compatible` tests membership *inside
that first alternative* (`value in self.get()`, where `Choice.get`
overrides `get` to `self._value[0]`): the genuine alternative `[2]` is
rejected while `1`, which is no alternative at all but an element of
the first one, is accepted.  The claim (membership in the list of
alternatives, as the class docstring "One element of list/tuple"
intends) is what the code was meant to do. -/
theorem c3_choice_compatible_wrong_container :
    TOption.get (.choice c3alts) = .vlist [.vnat 1] ∧
    Value.vlist [.vnat 2] ∈ c3alts ∧
    TOption.compatible (.choice c3alts) (.vlist [.vnat 2]) = some false ∧
    Value.vnat 1 ∉ c3alts ∧
    TOption.compatible (.choice c3alts) (.vnat 1) = some true := by
  refine ⟨rfl, ?_, by decide, by decide, by decide⟩
  simp [c3alts]

/-- C4: evaluation of `Tunable.tune` at the failing input — tuning the
single open option of `oneOptTunable` succeeds, and the returned state
still carries `_tuning = True`: the flag is only reset in the `except`
branch of `tune`, so a successful resolution leaves it set forever
(and no code ever reads the flag to reject a reentrant resolution). -/
theorem c4_tuning_flag_not_cleared_on_success :
    oneOptTunable.tuneKey "opt" =
      some (.value (.vnat 0)
        { tunable_options := [], tuned_options := [("opt", .vnat 0)],
          tuning := .vbool true, raise_not_tuned := none }) := by
  decide

/-- A `Tunable` whose open option is registered under the reserved slot
name `_tuning` (nothing in `add_tunable_option` forbids it). -/
def slotNamedTunable : Tunable :=
  { tunable_options := [("_tuning", .base (.vnat 0))], tuned_options := [],
    tuning := .vbool false, raise_not_tuned := none }

/-- C2, counterexample: the value `1` is incompatible with the option
registered under the name `_tuning`, yet the attribute assignment does
not raise — `__setattr__` tests `key not in Tunable.__slots__` first,
so the write bypasses the compatibility check and silently lands in the
`_tuning` slot, with `tunable_options` still holding the name. -/
theorem c2_counterexample_slot_named_option :
    TOption.compatible (.base (.vnat 0)) (.vnat 1) = some false ∧
    slotNamedTunable.setattr "_tuning" (.vnat 1) =
      some (.ok { slotNamedTunable with tuning := .vnat 1 }) := by
  constructor <;> decide

/-- C2 (amended): for every name of `tunable_options` that is not one of
the four reserved slot names, assigning an incompatible value raises
with both mappings exactly as they were, and assigning a compatible
value atomically moves the name from `tunable_options` to
`tuned_options` with that value. -/
theorem c2_amended_option_write_atomicity
    (t : Tunable) (key : String) (opt : TOption) (v : Value)
    (hk : t.tunable_options.lookup key = some opt)
    (hs : key ∉ Tunable.slots) :
    (opt.compatible v = some false →
      t.setattr key v = some (.raised "Value not compatible" t)) ∧
    (opt.compatible v = some true →
      t.setattr key v = some (.ok { t with
        tunable_options := t.tunable_options.eraseP (fun p => p.1 == key),
        tuned_options := t.tuned_options ++ [(key, v)] })) := by
  have hcontains : Tunable.slots.contains key = false := by
    simpa using hs
  constructor <;> intro hc <;>
    simp [Tunable.setattr, hcontains, hk, hc, hs]

/-- C2, witness for the amended theorem: a concrete `Tunable` with the
open option `a: TunableOption(0)`; assigning `1` raises with the state
untouched, assigning `0` moves `a` into `tuned_options`. -/
theorem c2_amended_witness :
    (Tunable.setattr
        { tunable_options := [("a", .base (.vnat 0))], tuned_options := [],
          tuning := .vbool false, raise_not_tuned := none }
        "a" (.vnat 1) =
      some (.raised "Value not compatible"
        { tunable_options := [("a", .base (.vnat 0))], tuned_options := [],
          tuning := .vbool false, raise_not_tuned := none })) ∧
    (Tunable.setattr
        { tunable_options := [("a", .base (.vnat 0))], tuned_options := [],
          tuning := .vbool false, raise_not_tuned := none }
        "a" (.vnat 0) =
      some (.ok
        { tunable_options := [], tuned_options := [("a", .vnat 0)],
          tuning := .vbool false, raise_not_tuned := none })) :=
  ⟨(c2_amended_option_write_atomicity _ "a" (.base (.vnat 0)) (.vnat 1)
      (by decide) (by decide)).1 (by decide),
   (c2_amended_option_write_atomicity _ "a" (.base (.vnat 0)) (.vnat 0)
      (by decide) (by decide)).2 (by decide)⟩

/-- A `Tunable` whose tuned option is registered under the reserved slot
name `_tuning` (nothing in `add_tuned_option` forbids it). -/
def slotNamedTuned : Tunable :=
  { tunable_options := [], tuned_options := [("_tuning", .vnat 7)],
    tuning := .vbool false, raise_not_tuned := none }

/-- C5, counterexample: `_tuning` is present in `tuned_options`, yet
writing to it does not raise — the `__slots__` test in `__setattr__`
sends the write to `object.__setattr__`, which silently overwrites the
`_tuning` slot. -/
theorem c5_counterexample_slot_named_tuned :
    slotNamedTuned.setattr "_tuning" (.vnat 5) =
      some (.ok { slotNamedTuned with tuning := .vnat 5 }) := by
  decide

/-- C5 (amended): for every name present in `tuned_options` and absent
from `tunable_options` (the class invariant keeps the two mappings
disjoint) that is not one of the four reserved slot names, every
attribute write to it raises with the object unchanged, and
`tune(name)` returns the stored value with both mappings (and the whole
state) exactly as they were. -/
theorem c5_amended_tuned_names_final
    (t : Tunable) (key : String) (w v : Value)
    (hk : t.tuned_options.lookup key = some w)
    (hnk : t.tunable_options.lookup key = none)
    (hs : key ∉ Tunable.slots) :
    t.setattr key v =
      some (.raised "The value of a tuned option cannot be changed." t) ∧
    t.tuneKey key = some (.value w t) := by
  have hcontains : Tunable.slots.contains key = false := by
    simpa using hs
  constructor
  · simp [Tunable.setattr, hcontains, hk, hnk, hs]
  · simp [Tunable.tuneKey, hk]

/-- C5, witness for the amended theorem: a concrete `Tunable` with the
tuned option `b: 3`; writing `9` to it raises with the state untouched,
and `tune("b")` returns `3` without side effects. -/
theorem c5_amended_witness :
    (Tunable.setattr
        { tunable_options := [], tuned_options := [("b", .vnat 3)],
          tuning := .vbool false, raise_not_tuned := none }
        "b" (.vnat 9) =
      some (.raised "The value of a tuned option cannot be changed."
        { tunable_options := [], tuned_options := [("b", .vnat 3)],
          tuning := .vbool false, raise_not_tuned := none })) ∧
    (Tunable.tuneKey
        { tunable_options := [], tuned_options := [("b", .vnat 3)],
          tuning := .vbool false, raise_not_tuned := none }
        "b" =
      some (.value (.vnat 3)
        { tunable_options := [], tuned_options := [("b", .vnat 3)],
          tuning := .vbool false, raise_not_tuned := none })) := by
  have h := c5_amended_tuned_names_final
    { tunable_options := [], tuned_options := [("b", .vnat 3)],
      tuning := .vbool false, raise_not_tuned := none }
    "b" (.vnat 3) (.vnat 9) (by decide) (by decide) (by decide)
  exact ⟨h.1, h.2⟩

/-- A field over the lattice `x=4, y=4` with the two non-repeated axes
`x` and `y`. -/
def xyField : PField :=
  { dtype := "complex128", axes := ["x", "y"], lattice := [("x", 4), ("y", 4)] }

/-- C8, counterexample: `transpose()` on a field none of whose axes has
count above one takes the `if not axes and not axes_order: return self`
branch of `ArrayField.transpose` and returns the receiver object
itself, not a new `Field`. -/
theorem c8_counterexample_transpose_returns_self :
    xyField.transpose [] [] = .ok .same := by
  rfl

/-- C8 (amended): each operation, whenever it returns instead of
raising, returns a newly allocated `Field` and leaves the receiver
unchanged (inherent here: the embedded operations only read the
receiver), with two exceptions taken from the code: `astype` returns
the receiver itself when the requested dtype already equals the current
one, and `transpose` returns the receiver itself exactly when no
`axes_order` is given and no selected axis has count above one. -/
theorem c8_amended_copy_on_write :
    (∀ (f : PField) (d : String),
      f.astype d = if f.dtype == d then .same else .copied) ∧
    (∀ (f : PField) (d : Option String), f.zeros d = .copied) ∧
    (∀ (f : PField) (d : Option String), f.ones d = .copied) ∧
    (∀ (f : PField) (ord : List String) (r : FRet),
      f.reorder ord = .ok r → r = .copied) ∧
    (∀ (f : PField) (axes : List String)
      (ord : List (String × List Nat)) (r : FRet),
      f.transpose axes ord = .ok r →
        (r = FRet.same ↔
          ((f.get_axes axes).filter (fun a =>
            !(ord.map (fun p => p.1)).contains a &&
              ((f.axes_counts.lookup a).getD 0 > 1))) = [] ∧ ord = [])) ∧
    (∀ (f : PField) (a b c : List String) (r : FRet),
      f.squeeze a b c = .ok r → r = .copied) ∧
    (∀ (f : PField) (s : Int) (a b c : List String) (r : FRet),
      f.roll s a b c = .ok r → r = .copied) := by
  refine ⟨fun f d => rfl, fun f d => rfl, fun f d => rfl,
    ?_, ?_, ?_, ?_⟩
  · intro f ord r h
    unfold PField.reorder at h
    split at h
    · injection h with h2
      exact h2.symm
    · exact Except.noConfusion h
  · intro f axes ord r h
    unfold PField.transpose at h
    dsimp only at h
    split at h
    · exact Except.noConfusion h
    · split at h
      next hcond =>
        injection h with h2
        subst h2
        simp only [Bool.and_eq_true, List.isEmpty_iff] at hcond
        exact iff_of_true rfl hcond
      next hcond =>
        injection h with h2
        subst h2
        refine ⟨fun hr => absurd hr (by simp), fun hr => absurd ?_ hcond⟩
        rw [hr.1, hr.2]
        rfl
  · intro f a b c r h
    unfold PField.squeeze at h
    dsimp only at h
    split at h
    · exact Except.noConfusion h
    · split at h
      · injection h with h2
        exact h2.symm
      · exact Except.noConfusion h
  · intro f s a b c r h
    unfold PField.roll at h
    dsimp only at h
    split at h
    · exact Except.noConfusion h
    · injection h with h2
      exact h2.symm

/-- C8, witness for the amended theorem: on the concrete field over
`x, y`, a full reorder returns a copy, and `transpose()` with no
arguments returns the receiver because the filtered axis list is empty. -/
theorem c8_amended_witness :
    FRet.copied = FRet.copied ∧
    (FRet.same = FRet.same ↔
      ((xyField.get_axes []).filter (fun a =>
        !(([] : List (String × List Nat)).map (fun p => p.1)).contains a &&
          ((xyField.axes_counts.lookup a).getD 0 > 1))) = [] ∧
        ([] : List (String × List Nat)) = []) := by
  constructor
  · exact (c8_amended_copy_on_write.2.2.2.1) xyField ["y", "x"] .copied rfl
  · exact (c8_amended_copy_on_write.2.2.2.2.1) xyField [] [] .same rfl

end Lyncs
